import Mathlib

/-!
Formal model of the real-time connection registry, message dispatcher and
protocol handlers of the repository:

* `app/websocket/manager.py` (`ConnectionManager`),
* `app/services/core/websocket_service.py` (`WebSocketService`),
* `app/websocket/handler.py` (`WebSocketHandler`, `SimpleWebSocketHandler`),
* `app/websocket/im_handler.py` (`IMWebSocketHandler`).

Transport sockets are modelled by natural-number handles, Python
dictionaries by functions into `Option`, Python sets by duplicate-free
lists, and the outcome of `await websocket.send_text` by a boolean
oracle over handles.  All definitions are translated from the source;
theorems about the frozen claims follow at the end of the file.
-/

/-- Transport-level socket handles (`WebSocket` objects) are opaque to the
registry; we model them by natural-number identifiers. -/
abbrev Ws := Nat

/-- State of `ConnectionManager` (`app/websocket/manager.py`): the forward
index `active_connections : Dict[str, Set[WebSocket]]` and the reverse
index `connection_to_user : Dict[WebSocket, str]`.  A dictionary is
modelled as a function into `Option`; each per-user set is a list (kept
duplicate-free by `connect`, which only adds an absent handle). -/
structure ConnectionManager where
  active_connections : String → Option (List Ws)
  connection_to_user : Ws → Option String

namespace ConnectionManager

/-- `ConnectionManager.__init__`: both indices start empty. -/
def init : ConnectionManager :=
  { active_connections := fun _ => none
    connection_to_user := fun _ => none }

/-- `ConnectionManager.connect(websocket, user_id)` (manager.py lines 42-68).
The transport handshake `await websocket.accept()` has no registry effect;
the registration itself creates the user's set when absent, adds the
handle to it (`set.add`: a no-op when already present), and records the
reverse mapping. -/
def connect (st : ConnectionManager) (websocket : Ws) (user_id : String) :
    ConnectionManager :=
  let s := (st.active_connections user_id).getD []
  { active_connections := fun u =>
      if u = user_id then some (if websocket ∈ s then s else websocket :: s)
      else st.active_connections u
    connection_to_user := fun w =>
      if w = websocket then some user_id else st.connection_to_user w }

/-- `ConnectionManager.disconnect(websocket)` (manager.py lines 70-104).
`connection_to_user.get(websocket)` yields the owning identity; the
removal block is guarded by Python truthiness (`if user_id:`), so a
connection registered under the empty string is returned but not removed;
the function finally returns `user_id` (`None` when the handle was not in
the reverse index). -/
def disconnect (st : ConnectionManager) (websocket : Ws) :
    Option String × ConnectionManager :=
  match st.connection_to_user websocket with
  | none => (none, st)
  | some user_id =>
    if user_id = "" then (some user_id, st)
    else
      (some user_id,
       { active_connections := fun u =>
           if u = user_id then
             match st.active_connections user_id with
             | none => none
             | some s =>
               let s' := s.erase websocket
               if s' = [] then none else some s'
           else st.active_connections u
         connection_to_user := fun w =>
           if w = websocket then none else st.connection_to_user w })

/-- Result of one `send_personal_message` call: the returned boolean, the
manager state after the self-healing clean-up, and the list of
connections a socket write was attempted on. -/
structure SendResult where
  ok : Bool
  st : ConnectionManager
  attempts : List Ws

/-- `ConnectionManager.send_personal_message(message, user_id)` (manager.py
lines 106-160).  The serialized payload is written to every connection in
the user's set; `sendOk` is the oracle deciding whether a given
`await websocket.send_text` raises.  The loop counts successes and
collects the failing connections, which are then passed to `disconnect`;
the call returns `success_count > 0`. -/
def send_personal_message (st : ConnectionManager) (sendOk : Ws → Bool)
    (user_id : String) : SendResult :=
  match st.active_connections user_id with
  | none => ⟨false, st, []⟩
  | some conns =>
    let success_count := (conns.filter (fun w => sendOk w)).length
    let disconnected := conns.filter (fun w => !sendOk w)
    let st' := disconnected.foldl (fun a w => (disconnect a w).2) st
    ⟨decide (0 < success_count), st', conns⟩

/-- `ConnectionManager.is_user_connected(user_id)` (manager.py lines
249-259): the identity is a key of the forward index and its set is
non-empty. -/
def is_user_connected (st : ConnectionManager) (user_id : String) : Bool :=
  match st.active_connections user_id with
  | none => false
  | some s => decide (0 < s.length)

end ConnectionManager

namespace ConnectionManager

/-- Well-formedness of the registry index: every forward-index entry is a
non-empty duplicate-free set, every member of a forward set is mapped
back to its owner by the reverse index, and every reverse-index entry
points into a forward set containing the connection. -/
def Consistent (st : ConnectionManager) : Prop :=
  (∀ u s, st.active_connections u = some s → s ≠ [] ∧ s.Nodup) ∧
  (∀ u s w, st.active_connections u = some s → w ∈ s →
    st.connection_to_user w = some u) ∧
  (∀ w u, st.connection_to_user w = some u →
    ∃ s, st.active_connections u = some s ∧ w ∈ s)

theorem consistent_init : Consistent init := by
  refine ⟨?_, ?_, ?_⟩
  · intro u s h; simp [init] at h
  · intro u s w h; simp [init] at h
  · intro w u h; simp [init] at h

theorem connect_active_same (st : ConnectionManager) (ws : Ws) (uid : String) :
    (connect st ws uid).active_connections uid =
      some (if ws ∈ (st.active_connections uid).getD [] then
              (st.active_connections uid).getD []
            else ws :: (st.active_connections uid).getD []) := by
  simp [connect]

theorem connect_active_other (st : ConnectionManager) (ws : Ws) {uid u : String}
    (h : u ≠ uid) :
    (connect st ws uid).active_connections u = st.active_connections u := by
  simp [connect, h]

theorem connect_rev_same (st : ConnectionManager) (ws : Ws) (uid : String) :
    (connect st ws uid).connection_to_user ws = some uid := by
  simp [connect]

theorem connect_rev_other (st : ConnectionManager) {ws w : Ws} (uid : String)
    (h : w ≠ ws) :
    (connect st ws uid).connection_to_user w = st.connection_to_user w := by
  simp [connect, h]

theorem disconnect_of_rev_none {st : ConnectionManager} {ws : Ws}
    (h : st.connection_to_user ws = none) :
    disconnect st ws = (none, st) := by
  simp [disconnect, h]

theorem disconnect_of_rev_empty {st : ConnectionManager} {ws : Ws}
    (h : st.connection_to_user ws = some "") :
    disconnect st ws = (some "", st) := by
  simp [disconnect, h]

theorem disconnect_fst {st : ConnectionManager} {ws : Ws} {uid : String}
    (h : st.connection_to_user ws = some uid) :
    (disconnect st ws).1 = some uid := by
  by_cases he : uid = ""
  · subst he; simp [disconnect, h]
  · simp [disconnect, h, he]

theorem disconnect_active {st : ConnectionManager} {ws : Ws} {uid : String}
    (h : st.connection_to_user ws = some uid) (hne : uid ≠ "") (u : String) :
    (disconnect st ws).2.active_connections u =
      if u = uid then
        match st.active_connections uid with
        | none => none
        | some s =>
          if s.erase ws = [] then none else some (s.erase ws)
      else st.active_connections u := by
  simp [disconnect, h, hne]

theorem disconnect_rev {st : ConnectionManager} {ws : Ws} {uid : String}
    (h : st.connection_to_user ws = some uid) (hne : uid ≠ "") (w : Ws) :
    (disconnect st ws).2.connection_to_user w =
      if w = ws then none else st.connection_to_user w := by
  simp [disconnect, h, hne]


theorem disconnect_active_some {st : ConnectionManager} {ws : Ws} {uid : String}
    {s0 : List Ws} (h : st.connection_to_user ws = some uid) (hne : uid ≠ "")
    (hs0 : st.active_connections uid = some s0) (u : String) :
    (disconnect st ws).2.active_connections u =
      if u = uid then
        (if s0.erase ws = [] then none else some (s0.erase ws))
      else st.active_connections u := by
  by_cases hu : u = uid
  · subst hu
    simp [disconnect, h, hne, hs0]
  · simp [disconnect, h, hne, hu]

theorem connect_set_spec (st : ConnectionManager) (ws : Ws) (uid : String)
    (hWF : ∀ s, st.active_connections uid = some s → s.Nodup) :
    ∃ t, (connect st ws uid).active_connections uid = some t ∧
      t.Nodup ∧ ws ∈ t ∧
      (∀ w, w ∈ t ↔ w = ws ∨ ∃ s, st.active_connections uid = some s ∧ w ∈ s) := by
  cases hs0 : st.active_connections uid with
  | none =>
    refine ⟨[ws], ?_, ?_, ?_, ?_⟩
    · rw [connect_active_same, hs0]; simp
    · simp
    · simp
    · intro w; simp [hs0]
  | some s0 =>
    have hnd := hWF s0 hs0
    by_cases hmem : ws ∈ s0
    · refine ⟨s0, ?_, hnd, hmem, ?_⟩
      · rw [connect_active_same, hs0]; simp [hmem]
      · intro w
        constructor
        · intro hw; exact Or.inr ⟨s0, rfl, hw⟩
        · rintro (rfl | ⟨s, hs, hw⟩)
          · exact hmem
          · injection hs with hs; exact hs ▸ hw
    · refine ⟨ws :: s0, ?_, ?_, List.mem_cons_self _ _, ?_⟩
      · rw [connect_active_same, hs0]; simp [hmem]
      · exact List.nodup_cons.mpr ⟨hmem, hnd⟩
      · intro w
        constructor
        · intro hw
          rcases List.mem_cons.mp hw with rfl | hw
          · exact Or.inl rfl
          · exact Or.inr ⟨s0, rfl, hw⟩
        · rintro (rfl | ⟨s, hs, hw⟩)
          · exact List.mem_cons_self _ _
          · injection hs with hs
            exact List.mem_cons_of_mem _ (hs ▸ hw)

theorem consistent_connect {st : ConnectionManager} {ws : Ws} {uid : String}
    (hc : Consistent st) (hfresh : st.connection_to_user ws = none) :
    Consistent (connect st ws uid) := by
  obtain ⟨h1, h2, h3⟩ := hc
  obtain ⟨t, ht, htnd, hwst, htmem⟩ :=
    connect_set_spec st ws uid (fun s hs => (h1 uid s hs).2)
  refine ⟨?_, ?_, ?_⟩
  · intro u s hs
    by_cases hu : u = uid
    · subst hu
      rw [ht] at hs
      injection hs with hs
      subst hs
      exact ⟨List.ne_nil_of_mem hwst, htnd⟩
    · rw [connect_active_other st ws hu] at hs
      exact h1 u s hs
  · intro u s w hs hw
    by_cases hu : u = uid
    · subst hu
      rw [ht] at hs
      injection hs with hs
      subst hs
      rcases (htmem w).mp hw with rfl | ⟨s1, hs1, hw1⟩
      · exact connect_rev_same st w u
      · have hold : st.connection_to_user w = some u := h2 u s1 w hs1 hw1
        have hwws : w ≠ ws := by
          intro hcontra
          rw [hcontra, hfresh] at hold
          exact Option.noConfusion hold
        rw [connect_rev_other st u hwws]
        exact hold
    · rw [connect_active_other st ws hu] at hs
      have hold : st.connection_to_user w = some u := h2 u s w hs hw
      have hwws : w ≠ ws := by
        intro hcontra
        rw [hcontra, hfresh] at hold
        exact Option.noConfusion hold
      rw [connect_rev_other st uid hwws]
      exact hold
  · intro w u hw
    by_cases hwws : w = ws
    · subst hwws
      rw [connect_rev_same] at hw
      injection hw with hw
      subst hw
      exact ⟨t, ht, hwst⟩
    · rw [connect_rev_other st uid hwws] at hw
      obtain ⟨s, hs, hws⟩ := h3 w u hw
      by_cases hu : u = uid
      · subst hu
        exact ⟨t, ht, (htmem w).mpr (Or.inr ⟨s, hs, hws⟩)⟩
      · rw [connect_active_other st ws hu]
        exact ⟨s, hs, hws⟩

theorem consistent_disconnect {st : ConnectionManager} (ws : Ws)
    (hc : Consistent st) : Consistent (disconnect st ws).2 := by
  obtain ⟨h1, h2, h3⟩ := hc
  cases hrev : st.connection_to_user ws with
  | none =>
    rw [disconnect_of_rev_none hrev]
    exact ⟨h1, h2, h3⟩
  | some uid =>
    by_cases hne : uid = ""
    · subst hne
      rw [disconnect_of_rev_empty hrev]
      exact ⟨h1, h2, h3⟩
    · obtain ⟨s0, hs0, hws0⟩ := h3 ws uid hrev
      obtain ⟨hs0ne, hs0nd⟩ := h1 uid s0 hs0
      refine ⟨?_, ?_, ?_⟩
      · intro u s hs
        rw [disconnect_active_some hrev hne hs0] at hs
        by_cases hu : u = uid
        · rw [if_pos hu] at hs
          by_cases hnil : s0.erase ws = []
          · rw [if_pos hnil] at hs; exact Option.noConfusion hs
          · rw [if_neg hnil] at hs
            injection hs with hs
            subst hs
            exact ⟨hnil, hs0nd.erase ws⟩
        · rw [if_neg hu] at hs
          exact h1 u s hs
      · intro u s w hs hw
        rw [disconnect_active_some hrev hne hs0] at hs
        rw [disconnect_rev hrev hne]
        by_cases hu : u = uid
        · subst hu
          rw [if_pos rfl] at hs
          by_cases hnil : s0.erase ws = []
          · rw [if_pos hnil] at hs; exact Option.noConfusion hs
          · rw [if_neg hnil] at hs
            injection hs with hs
            subst hs
            have hmem := hs0nd.mem_erase_iff.mp hw
            rw [if_neg hmem.1]
            exact h2 u s0 w hs0 hmem.2
        · rw [if_neg hu] at hs
          have hrw := h2 u s w hs hw
          have hwws : w ≠ ws := by
            intro hcontra
            rw [hcontra, hrev] at hrw
            injection hrw with hrw
            exact hu hrw.symm
          rw [if_neg hwws]
          exact hrw
      · intro w u hw
        rw [disconnect_rev hrev hne] at hw
        by_cases hwws : w = ws
        · rw [if_pos hwws] at hw; exact Option.noConfusion hw
        · rw [if_neg hwws] at hw
          obtain ⟨s, hs, hwss⟩ := h3 w u hw
          rw [disconnect_active_some hrev hne hs0]
          by_cases hu : u = uid
          · subst hu
            rw [if_pos rfl]
            have hseq : s0 = s := by
              rw [hs] at hs0
              exact (Option.some_inj.mp hs0).symm
            subst hseq
            have hmem : w ∈ s0.erase ws := (List.mem_erase_of_ne hwws).mpr hwss
            have hnil : s0.erase ws ≠ [] := List.ne_nil_of_mem hmem
            rw [if_neg hnil]
            exact ⟨_, rfl, hmem⟩
          · rw [if_neg hu]
            exact ⟨s, hs, hwss⟩

end ConnectionManager

/-- One registry call of the operation language of claim C1: the mutating
entry points of `ConnectionManager`. -/
inductive Op
  | connect (websocket : Ws) (user_id : String)
  | disconnect (websocket : Ws)

namespace ConnectionManager

/-- Execute one operation (the return value of `disconnect` is dropped). -/
def step (st : ConnectionManager) : Op → ConnectionManager
  | .connect ws uid => st.connect ws uid
  | .disconnect ws => (st.disconnect ws).2

/-- Execute a sequence of operations from a given state. -/
def runFrom (st : ConnectionManager) : List Op → ConnectionManager
  | [] => st
  | op :: rest => runFrom (st.step op) rest

/-- Execute a sequence of operations starting from the empty registry. -/
def run (ops : List Op) : ConnectionManager := runFrom init ops

/-- Every `connect` of the sequence carries a non-empty user identity. -/
def NonEmptyIds : List Op → Bool
  | [] => true
  | Op.connect _ uid :: rest => uid != "" && NonEmptyIds rest
  | Op.disconnect _ :: rest => NonEmptyIds rest

/-- A sequence is admissible from `st` when every `connect` call carries a
non-empty user identity and a websocket that is not registered at that
point (the spec's `register` precondition: a freshly accepted,
not-yet-registered transport handle). -/
def Admissible (st : ConnectionManager) : List Op → Bool
  | [] => true
  | Op.connect ws uid :: rest =>
    uid != "" && (st.connection_to_user ws).isNone &&
      Admissible (st.connect ws uid) rest
  | Op.disconnect ws :: rest => Admissible (st.disconnect ws).2 rest

theorem consistent_runFrom (ops : List Op) (st : ConnectionManager)
    (hc : Consistent st) (ha : Admissible st ops = true) :
    Consistent (runFrom st ops) := by
  induction ops generalizing st with
  | nil => exact hc
  | cons op rest ih =>
    cases op with
    | connect ws uid =>
      simp only [Admissible, Bool.and_eq_true, Option.isNone_iff_eq_none] at ha
      obtain ⟨⟨-, hfresh⟩, hrest⟩ := ha
      exact ih _ (consistent_connect hc hfresh) hrest
    | disconnect ws =>
      simp only [Admissible] at ha
      exact ih _ (consistent_disconnect ws hc) ha

/-- The index-consistency invariant exactly as claim C1 words it: a user
identity is a key of the forward index iff its connection set is
non-empty, and a connection is a key of the reverse index iff it is a
member of exactly one user's forward-index set. -/
def ClaimInv (st : ConnectionManager) : Prop :=
  (∀ u, (st.active_connections u).isSome ↔
    ∃ s, st.active_connections u = some s ∧ s ≠ []) ∧
  (∀ w, (st.connection_to_user w).isSome ↔
    ∃! u, ∃ s, st.active_connections u = some s ∧ w ∈ s)

theorem claimInv_of_consistent {st : ConnectionManager}
    (hc : Consistent st) : ClaimInv st := by
  obtain ⟨h1, h2, h3⟩ := hc
  constructor
  · intro u
    constructor
    · intro hu
      cases hs : st.active_connections u with
      | none => rw [hs] at hu; exact absurd hu (by simp)
      | some s => exact ⟨s, rfl, (h1 u s hs).1⟩
    · rintro ⟨s, hs, -⟩
      rw [hs]; rfl
  · intro w
    constructor
    · intro hw
      cases hrev : st.connection_to_user w with
      | none => rw [hrev] at hw; exact absurd hw (by simp)
      | some u =>
        obtain ⟨s, hs, hws⟩ := h3 w u hrev
        refine ⟨u, ⟨s, hs, hws⟩, ?_⟩
        rintro u' ⟨s', hs', hws'⟩
        have hu' := h2 u' s' w hs' hws'
        rw [hrev] at hu'
        injection hu' with hu'
        exact hu'.symm
    · rintro ⟨u, ⟨s, hs, hws⟩, -⟩
      rw [h2 u s w hs hws]; rfl

end ConnectionManager

namespace ConnectionManager

/-- Effect of the clean-up loop of `send_personal_message`: folding
`disconnect` over a duplicate-free list `L` of connections, all belonging
to the same non-empty identity `uid`, removes exactly the connections of
`L` from both indices and deletes the user entry when its set drains. -/
theorem disconnect_foldl {uid : String} (hne : uid ≠ "") :
    ∀ (L : List Ws) (st : ConnectionManager) (s : List Ws),
    Consistent st → st.active_connections uid = some s →
    L.Nodup → (∀ w, w ∈ L → w ∈ s) →
    Consistent (L.foldl (fun a w => (disconnect a w).2) st) ∧
    ((L.foldl (fun a w => (disconnect a w).2) st).active_connections uid =
      if s.filter (fun w => decide (w ∉ L)) = [] then none
      else some (s.filter (fun w => decide (w ∉ L)))) ∧
    (∀ u, u ≠ uid →
      (L.foldl (fun a w => (disconnect a w).2) st).active_connections u =
        st.active_connections u) ∧
    (∀ w, (L.foldl (fun a w => (disconnect a w).2) st).connection_to_user w =
      if w ∈ L then none else st.connection_to_user w) := by
  intro L
  induction L with
  | nil =>
    intro st s hc hs _ _
    have hsne : s ≠ [] := (hc.1 uid s hs).1
    refine ⟨hc, ?_, fun u _ => rfl, fun w => by simp⟩
    simp only [List.foldl_nil]
    rw [hs]
    have hfe : s.filter (fun w => decide (w ∉ ([] : List Ws))) = s := by
      apply List.filter_eq_self.mpr
      intro a _
      simp
    rw [hfe, if_neg hsne]
  | cons w0 L' ih =>
    intro st s hc hs hnd hsub
    have hw0s : w0 ∈ s := hsub w0 (List.mem_cons_self _ _)
    have hrev0 : st.connection_to_user w0 = some uid := hc.2.1 uid s w0 hs hw0s
    have hsnd : s.Nodup := (hc.1 uid s hs).2
    have hc1 : Consistent (disconnect st w0).2 := consistent_disconnect w0 hc
    have hact1 := disconnect_active_some hrev0 hne hs
    have hrev1 := disconnect_rev hrev0 hne
    obtain ⟨hw0L, hndL⟩ := List.nodup_cons.mp hnd
    simp only [List.foldl_cons]
    by_cases hnil : s.erase w0 = []
    · have hslen : s.length = 1 := by
        have hlen : (s.erase w0).length = s.length - 1 :=
          List.length_erase_of_mem hw0s
        rw [hnil] at hlen
        simp only [List.length_nil] at hlen
        have hpos : 0 < s.length := List.length_pos.mpr (List.ne_nil_of_mem hw0s)
        omega
      obtain ⟨a, ha⟩ := List.length_eq_one.mp hslen
      have hsw0 : s = [w0] := by
        subst ha
        rcases List.mem_singleton.mp hw0s with rfl
        rfl
      have hL' : L' = [] := by
        apply List.eq_nil_iff_forall_not_mem.mpr
        intro x hx
        have hxs : x ∈ s := hsub x (List.mem_cons_of_mem _ hx)
        rw [hsw0] at hxs
        rcases List.mem_singleton.mp hxs with rfl
        exact hw0L hx
      subst hL'
      simp only [List.foldl_nil]
      refine ⟨hc1, ?_, ?_, ?_⟩
      · rw [hact1 uid, if_pos rfl, if_pos hnil, hsw0]
        simp
      · intro u hu
        rw [hact1 u, if_neg hu]
      · intro w
        rw [hrev1 w]
        by_cases hww0 : w = w0 <;> simp [hww0]
    · have hs1 : (disconnect st w0).2.active_connections uid =
          some (s.erase w0) := by
        rw [hact1 uid, if_pos rfl, if_neg hnil]
      have hsubL : ∀ x, x ∈ L' → x ∈ s.erase w0 := by
        intro x hx
        have hxw0 : x ≠ w0 := fun hxe => hw0L (hxe ▸ hx)
        exact (List.mem_erase_of_ne hxw0).mpr (hsub x (List.mem_cons_of_mem _ hx))
      obtain ⟨ihc, ihact, ihother, ihrev⟩ :=
        ih (disconnect st w0).2 (s.erase w0) hc1 hs1 hndL hsubL
      refine ⟨ihc, ?_, ?_, ?_⟩
      · rw [ihact]
        have hfe : (s.erase w0).filter (fun w => decide (w ∉ L')) =
            s.filter (fun w => decide (w ∉ w0 :: L')) := by
          rw [hsnd.erase_eq_filter w0, List.filter_filter]
          apply List.filter_congr
          intro x _
          by_cases hx0 : x = w0
          · subst hx0; simp
          · by_cases hxL : x ∈ L' <;> simp [hx0, hxL]
        rw [hfe]
      · intro u hu
        rw [ihother u hu, hact1 u, if_neg hu]
      · intro w
        rw [ihrev w, hrev1 w]
        by_cases hwL : w ∈ L'
        · simp [hwL]
        · by_cases hww0 : w = w0
          · subst hww0; simp
          · simp [hwL, hww0]

end ConnectionManager

namespace ConnectionManager

theorem send_of_none {st : ConnectionManager} {uid : String}
    (sendOk : Ws → Bool) (hs : st.active_connections uid = none) :
    send_personal_message st sendOk uid = ⟨false, st, []⟩ := by
  simp [send_personal_message, hs]

theorem filter_not_mem_filter_not (s : List Ws) (p : Ws → Bool) :
    s.filter (fun w => decide (w ∉ s.filter (fun v => !p v))) = s.filter p := by
  apply List.filter_congr
  intro x hx
  cases hpx : p x <;> simp [List.mem_filter, hpx, hx]

theorem send_spec {st : ConnectionManager} {uid : String} {s : List Ws}
    (sendOk : Ws → Bool) (hc : Consistent st) (hne : uid ≠ "")
    (hs : st.active_connections uid = some s) :
    (send_personal_message st sendOk uid).ok =
      decide (0 < (s.filter (fun w => sendOk w)).length) ∧
    (send_personal_message st sendOk uid).attempts = s ∧
    Consistent (send_personal_message st sendOk uid).st ∧
    ((send_personal_message st sendOk uid).st.active_connections uid =
      if s.filter (fun w => sendOk w) = [] then none
      else some (s.filter (fun w => sendOk w))) ∧
    (∀ u, u ≠ uid →
      (send_personal_message st sendOk uid).st.active_connections u =
        st.active_connections u) ∧
    (∀ w, (send_personal_message st sendOk uid).st.connection_to_user w =
      if w ∈ s ∧ sendOk w = false then none
      else st.connection_to_user w) := by
  have hsnd : s.Nodup := (hc.1 uid s hs).2
  have hdef : send_personal_message st sendOk uid =
      ⟨decide (0 < (s.filter (fun w => sendOk w)).length),
       (s.filter (fun w => !sendOk w)).foldl
         (fun a w => (disconnect a w).2) st, s⟩ := by
    simp [send_personal_message, hs]
  obtain ⟨hfc, hfact, hfother, hfrev⟩ :=
    disconnect_foldl hne (s.filter (fun w => !sendOk w)) st s hc hs
      (hsnd.filter _)
      (fun w hw => (List.mem_filter.mp hw).1)
  rw [hdef]
  refine ⟨rfl, rfl, hfc, ?_, hfother, ?_⟩
  · rw [hfact, filter_not_mem_filter_not]
  · intro w
    rw [hfrev w]
    by_cases hwmem : w ∈ s
    · cases hok : sendOk w <;>
        simp [List.mem_filter, hwmem, hok]
    · simp [List.mem_filter, hwmem]

theorem send_connected_after {st : ConnectionManager} {uid : String}
    {s : List Ws} (sendOk : Ws → Bool) (hc : Consistent st) (hne : uid ≠ "")
    (hs : st.active_connections uid = some s) :
    is_user_connected (send_personal_message st sendOk uid).st uid =
      (send_personal_message st sendOk uid).ok := by
  obtain ⟨hok, -, -, hact, -, -⟩ := send_spec sendOk hc hne hs
  rw [hok]
  by_cases hnil : s.filter (fun w => sendOk w) = []
  · simp [is_user_connected, hact, hnil]
  · simp [is_user_connected, hact, hnil]

end ConnectionManager

/-- A message dictionary (`Dict[str, Any]`) of the dispatcher layer: field
name to value.  Values are modelled as strings, which covers every field
the dispatcher reads or writes. -/
abbrev Message := String → Option String

/-- `message[key] = val` on a dictionary. -/
def dictSet (m : Message) (key val : String) : Message :=
  fun k => if k = key then some val else m k

theorem dictSet_same (m : Message) (k v : String) : dictSet m k v k = some v := by
  simp [dictSet]

theorem dictSet_other (m : Message) (k v k' : String) (h : k' ≠ k) :
    dictSet m k v k' = m k' := by
  simp [dictSet, h]

namespace WebSocketService

/-- `WebSocketService._format_message(message)` (websocket_service.py lines
169-190): ensure a `"type"` field (default `"message"`) and a
`"timestamp"` field (`datetime.now().isoformat()`, supplied here as `now`)
are present; a field already present is left untouched. -/
def format_message (now : String) (message : Message) : Message :=
  let m1 := if message "type" = none then dictSet message "type" "message"
            else message
  if m1 "timestamp" = none then dictSet m1 "timestamp" now else m1

/-- Result of `WebSocketService.send_message_to_user`: the returned
boolean, the manager state afterwards, the connections written to, and
the payload handed to `manager.send_personal_message` (the formatted
message). -/
structure UserSendResult where
  ok : Bool
  st : ConnectionManager
  attempts : List Ws
  payload : Message

/-- `WebSocketService.send_message_to_user(user_id, message)`
(websocket_service.py lines 126-167): formats the message and delegates
to `manager.send_personal_message`. -/
def send_message_to_user (st : ConnectionManager) (sendOk : Ws → Bool)
    (now : String) (user_id : String) (message : Message) : UserSendResult :=
  let formatted := format_message now message
  let r := ConnectionManager.send_personal_message st sendOk user_id
  ⟨r.ok, r.st, r.attempts, formatted⟩

/-- Result of `WebSocketService.send_message_to_group`: the returned
per-user success count, the manager state afterwards, the connections
written to, and the payload sent (absent when the member list was empty,
since the early return precedes formatting). -/
structure GroupSendResult where
  count : Nat
  st : ConnectionManager
  attempts : List Ws
  payload : Option Message

/-- The member-exclusion test of `send_message_to_group`
(`if exclude_user_id and member.user_id == exclude_user_id`): by Python
truthiness, `None` and the empty string exclude nobody. -/
def excludedBy (exclude_user_id : Option String) (member : String) : Bool :=
  match exclude_user_id with
  | none => false
  | some e => if e = "" then false else decide (member = e)

/-- `WebSocketService.send_message_to_group(group_id, message,
exclude_user_id)` (websocket_service.py lines 60-124).  The member list
returned by `GroupMemberRepository.get_members_by_group` is passed in as
`members`; an empty list returns 0 before the message is formatted;
otherwise the message is formatted once and pushed per non-excluded
member via `manager.send_personal_message`, summing per-user successes. -/
def send_message_to_group (st : ConnectionManager) (sendOk : Ws → Bool)
    (now : String) (members : List String) (message : Message)
    (exclude_user_id : Option String) : GroupSendResult :=
  if members = [] then ⟨0, st, [], none⟩
  else
    let formatted := format_message now message
    let r := members.foldl
      (fun (acc : Nat × ConnectionManager × List Ws) m =>
        if excludedBy exclude_user_id m then acc
        else
          let sr := ConnectionManager.send_personal_message acc.2.1 sendOk m
          (acc.1 + (if sr.ok then 1 else 0), sr.st, acc.2.2 ++ sr.attempts))
      (0, st, [])
    ⟨r.1, r.2.1, r.2.2, some formatted⟩

end WebSocketService

/-- Observable registry-affecting events of one `handle_connection`
execution: the `manager.connect` registration, one successfully handled
inbound frame, an `on_error` invocation, and the `manager.disconnect`
unregistration performed by `on_disconnect`. -/
inductive HEvent
  | register
  | msgHandled
  | onError
  | unregister
deriving DecidableEq

/-- Outcome of `await self.on_connect(websocket)` (handler.py lines 40-63,
im_handler.py lines 52-68): it completes, or raises during the transport
handshake `websocket.accept()` (before the index registration), or raises
while sending the welcome payload (after registration).  In every case
`self.websocket = websocket` has already executed, being the first
statement of `on_connect`. -/
inductive ConnectOutcome
  | ok
  | failAccept
  | failWelcome

/-- How the receive loop of `handle_connection` terminates.  The loop only
exits via `break`: on `WebSocketDisconnect` from `receive_text`, on any
other exception from `receive_text`, or on an exception escaping
`on_message` (both of the latter run `on_error` first). -/
inductive LoopEnding
  | recvDisconnect
  | recvError
  | msgError

/-- `WebSocketHandler.handle_connection(websocket)` (handler.py lines
186-227) as the trace of events of one terminating execution: `frames`
inbound messages are handled successfully before the loop ends; when
`on_connect` raised, the outer `except` runs `on_error`; the `finally`
block always runs `on_disconnect` (handler.py lines 95-112, im_handler.py
lines 207-216), whose last action is `manager.disconnect(self.websocket)`
— executed because `self.websocket` is always assigned. -/
def handle_connection (co : ConnectOutcome) (frames : Nat)
    (ending : LoopEnding) : List HEvent :=
  (match co with
   | .failAccept => [HEvent.onError]
   | .failWelcome => [HEvent.register, HEvent.onError]
   | .ok =>
     HEvent.register :: (List.replicate frames HEvent.msgHandled ++
       (match ending with
        | .recvDisconnect => []
        | .recvError => [HEvent.onError]
        | .msgError => [HEvent.onError])))
  ++ [HEvent.unregister]

/-- A decoded JSON value, to the depth the handlers inspect one: strings,
`null` (surfacing from `dict.get` misses), and objects. -/
inductive JVal
  | str (s : String)
  | jnull
  | obj (kvs : List (String × JVal))

/-- `data.get(key)` on a decoded JSON object. -/
def jget : List (String × JVal) → String → Option JVal
  | [], _ => none
  | (k, v) :: rest, key => if key = k then some v else jget rest key

/-- Python `value == "literal"` for a decoded value: true exactly when the
value is that string. -/
def jeqStr : JVal → String → Bool
  | .str t, s => t == s
  | _, _ => false

/-- The f-string rendering of a decoded value inside human-readable error
text; its exact form for non-string values is immaterial to the claims
and abbreviated here. -/
def pyStr : JVal → String
  | .str s => s
  | .jnull => "None"
  | .obj _ => "dict"

/-- An inbound frame: text that decodes as a JSON object, or text rejected
by `json.loads` (`json.JSONDecodeError`). -/
inductive InFrame
  | jsonFrame (raw : String) (data : List (String × JVal))
  | notJson (raw : String)

/-- `data.get("type", "unknown")` (handler.py line 254, im_handler.py line
85). -/
def messageTypeOf (data : List (String × JVal)) : JVal :=
  (jget data "type").getD (JVal.str "unknown")

/-- The payload built by `WebSocketHandler.send_error(error_message,
error_code)` (handler.py lines 164-184): type `"error"`, the message, and
the code when truthy. -/
def send_error_payload (error_message : String) (error_code : Option String) :
    JVal :=
  JVal.obj ([("type", JVal.str "error"), ("message", JVal.str error_message)] ++
    (match error_code with
     | none => []
     | some c => if c = "" then [] else [("code", JVal.str c)]))

/-- Field access on an object-shaped reply. -/
def reply_field : JVal → String → Option JVal
  | .obj kvs, k => jget kvs k
  | _, _ => none

/-- The `if message_type == ... / elif / else` dispatch of
`SimpleWebSocketHandler.on_message` (handler.py lines 260-280), producing
the replies sent. -/
def simple_dispatch (raw : String) (data : List (String × JVal)) (mt : JVal) :
    List JVal :=
  if jeqStr mt "ping" then
    [JVal.obj [("type", JVal.str "pong"),
               ("timestamp", (jget data "timestamp").getD JVal.jnull)]]
  else if jeqStr mt "echo" then
    [JVal.obj [("type", JVal.str "echo"),
               ("content", (jget data "content").getD (JVal.str "")),
               ("original", JVal.obj data)]]
  else
    [JVal.obj [("type", JVal.str "message"), ("content", JVal.obj data),
               ("message", JVal.str ("收到消息: " ++ raw))]]

/-- `SimpleWebSocketHandler.on_message(message)` (handler.py lines
248-284): on a `json.JSONDecodeError` the raw text is wrapped as
`{"type": "text", "content": message}` and dispatched with
`message_type = "text"`; otherwise the decoded object is dispatched on
its `"type"` field.  The function returns the replies sent and always
returns normally (every branch only sends), so the receive loop
continues. -/
def simple_on_message (frame : InFrame) : List JVal :=
  match frame with
  | .jsonFrame raw data => simple_dispatch raw data (messageTypeOf data)
  | .notJson raw =>
    simple_dispatch raw [("type", JVal.str "text"), ("content", JVal.str raw)]
      (JVal.str "text")

/-- `IMWebSocketHandler.on_message(message)` (im_handler.py lines 70-109):
a frame that fails JSON decoding is answered with an `INVALID_FORMAT`
error reply and the handler returns; `ping` gets a `pong`;
`send_message` is delegated to `handle_send_message` (whose replies are
abstracted by the `handle_send_message` argument, its collaborators being
out of scope); any other type is answered with an `UNKNOWN_MESSAGE_TYPE`
error reply.  Every branch returns normally, so the receive loop
continues. -/
def im_on_message (handle_send_message : List (String × JVal) → List JVal)
    (frame : InFrame) : List JVal :=
  match frame with
  | .notJson _ =>
    [send_error_payload "消息格式错误，必须是有效的 JSON" (some "INVALID_FORMAT")]
  | .jsonFrame _ data =>
    let mt := messageTypeOf data
    if jeqStr mt "ping" then
      [JVal.obj [("type", JVal.str "pong"),
                 ("timestamp", (jget data "timestamp").getD JVal.jnull)]]
    else if jeqStr mt "send_message" then handle_send_message data
    else
      [send_error_payload ("未知的消息类型: " ++ pyStr mt)
        (some "UNKNOWN_MESSAGE_TYPE")]

/-- Stand-in for the `handle_send_message` delegation in statements about
frames that do not carry `type = "send_message"` (where it is never
invoked). -/
def no_send_replies : List (String × JVal) → List JVal := fun _ => []

/-- C1 (amended): starting from an empty registry, after every finite
sequence of `connect`/`disconnect` calls in which each `connect` carries a
non-empty user identity and a websocket that is not registered at that
point (the spec's `register` precondition: a freshly accepted,
not-yet-registered transport handle), a user identity is a key of the
forward index `active_connections` iff its connection set is non-empty,
and a connection is a key of the reverse index `connection_to_user` iff
it is a member of exactly one user's forward-index set. -/
theorem c1_index_consistency (ops : List Op)
    (h : ConnectionManager.Admissible ConnectionManager.init ops = true) :
    ConnectionManager.ClaimInv (ConnectionManager.run ops) :=
  ConnectionManager.claimInv_of_consistent
    (ConnectionManager.consistent_runFrom ops ConnectionManager.init
      ConnectionManager.consistent_init h)

/-- C1 witness: a concrete admissible sequence satisfying the amended
claim's hypotheses, with its conclusion obtained from
`c1_index_consistency`. -/
theorem c1_witness :
    ConnectionManager.Admissible ConnectionManager.init
      [Op.connect 0 "a", Op.connect 1 "a", Op.disconnect 0] = true ∧
    ConnectionManager.ClaimInv (ConnectionManager.run
      [Op.connect 0 "a", Op.connect 1 "a", Op.disconnect 0]) :=
  ⟨by decide, c1_index_consistency _ (by decide)⟩

/-- C1 counterexample: the sequence `[connect(w0, "a"), connect(w0, "b")]`
uses only non-empty user identities, yet after running it from the empty
registry, connection `0` is a key of the reverse index while being a
member of the forward-index sets of both `"a"` and `"b"` — not of exactly
one — so the invariant of claim C1, which quantifies over all sequences
with non-empty identities, fails on the code. -/
theorem c1_counterexample :
    ConnectionManager.NonEmptyIds [Op.connect 0 "a", Op.connect 0 "b"] = true ∧
    ¬ ConnectionManager.ClaimInv
        (ConnectionManager.run [Op.connect 0 "a", Op.connect 0 "b"]) := by
  refine ⟨by decide, ?_⟩
  intro hinv
  have hsome : ((ConnectionManager.run
      [Op.connect 0 "a", Op.connect 0 "b"]).connection_to_user 0).isSome := by
    decide
  obtain ⟨u, -, huniq⟩ := (hinv.2 0).mp hsome
  have ha : "a" = u := huniq "a" ⟨[0], by decide, by decide⟩
  have hb : "b" = u := huniq "b" ⟨[0], by decide, by decide⟩
  have : ("a" : String) = "b" := ha.trans hb.symm
  exact absurd this (by decide)

/-- C3: unregistering is idempotent — for a connection absent from the
reverse index (never registered, or removed by an earlier successful
`disconnect`), `disconnect` returns `None` and leaves both indices
untouched; and after a `disconnect` that returned a non-empty identity,
a second `disconnect` of the same connection returns `None` and leaves
the state unchanged.  (The model is a total function: no code path of
`disconnect` raises.) -/
theorem c3_disconnect_idempotent (st : ConnectionManager) (ws : Ws) :
    (st.connection_to_user ws = none →
      ConnectionManager.disconnect st ws = (none, st)) ∧
    (∀ uid, (ConnectionManager.disconnect st ws).1 = some uid → uid ≠ "" →
      ConnectionManager.disconnect (ConnectionManager.disconnect st ws).2 ws =
        (none, (ConnectionManager.disconnect st ws).2)) := by
  constructor
  · exact fun h => ConnectionManager.disconnect_of_rev_none h
  · intro uid hret hne
    apply ConnectionManager.disconnect_of_rev_none
    cases hrev : st.connection_to_user ws with
    | none =>
      rw [ConnectionManager.disconnect_of_rev_none hrev] at hret
      exact absurd hret (by simp)
    | some u =>
      have hfst : (ConnectionManager.disconnect st ws).1 = some u :=
        ConnectionManager.disconnect_fst hrev
      rw [hfst] at hret
      injection hret with hret
      subst hret
      rw [ConnectionManager.disconnect_rev hrev hne]
      simp

/-- C3 witness: a never-registered connection and a twice-unregistered
connection, both at a concrete registry. -/
theorem c3_witness :
    ((ConnectionManager.connect ConnectionManager.init 0 "a").connection_to_user
        1 = none ∧
      ConnectionManager.disconnect
        (ConnectionManager.connect ConnectionManager.init 0 "a") 1 =
        (none, ConnectionManager.connect ConnectionManager.init 0 "a")) ∧
    ((ConnectionManager.disconnect
        (ConnectionManager.connect ConnectionManager.init 0 "a") 0).1 =
        some "a" ∧
      ("a" : String) ≠ "" ∧
      ConnectionManager.disconnect
        (ConnectionManager.disconnect
          (ConnectionManager.connect ConnectionManager.init 0 "a") 0).2 0 =
        (none,
         (ConnectionManager.disconnect
           (ConnectionManager.connect ConnectionManager.init 0 "a") 0).2)) :=
  ⟨⟨by decide,
    (c3_disconnect_idempotent
      (ConnectionManager.connect ConnectionManager.init 0 "a") 1).1 (by decide)⟩,
   ⟨by decide, by decide,
    (c3_disconnect_idempotent
      (ConnectionManager.connect ConnectionManager.init 0 "a") 0).2 "a"
      (by decide) (by decide)⟩⟩

/-- C9 (amended): `connect(websocket, "")` indexes the connection under
the key `""` in both indices, and a subsequent `disconnect(websocket)`
returns the empty string — a falsy "not found"-like value, but not
`None` — and removes the connection from neither index (the state is
returned unchanged); hence the index-consistency invariant and
unregister's postcondition only hold under the precondition that user
identities are non-empty. -/
theorem c9_empty_identity (st : ConnectionManager) (ws : Ws) :
    ((ConnectionManager.connect st ws "").active_connections "").isSome ∧
    ws ∈ ((ConnectionManager.connect st ws "").active_connections "").getD [] ∧
    (ConnectionManager.connect st ws "").connection_to_user ws = some "" ∧
    ConnectionManager.disconnect (ConnectionManager.connect st ws "") ws =
      (some "", ConnectionManager.connect st ws "") := by
  refine ⟨?_, ?_, ConnectionManager.connect_rev_same st ws "", ?_⟩
  · rw [ConnectionManager.connect_active_same st ws ""]
    rfl
  · rw [ConnectionManager.connect_active_same st ws ""]
    by_cases hmem : ws ∈ (st.active_connections "").getD []
    · rw [if_pos hmem]
      exact hmem
    · rw [if_neg hmem]
      exact List.mem_cons_self _ _
  · exact ConnectionManager.disconnect_of_rev_empty
      (ConnectionManager.connect_rev_same st ws "")

/-- C9 counterexample: the claim states that `disconnect` on an
empty-identity connection returns `None`; on the code it returns the
empty string. -/
theorem c9_counterexample :
    (ConnectionManager.disconnect
      (ConnectionManager.connect ConnectionManager.init 0 "") 0).1 = some "" ∧
    (ConnectionManager.disconnect
      (ConnectionManager.connect ConnectionManager.init 0 "") 0).1 ≠ none := by
  constructor <;> decide

theorem filter_length_pos_iff (s : List Ws) (p : Ws → Bool) :
    0 < (s.filter p).length ↔ ∃ w, w ∈ s ∧ p w = true := by
  constructor
  · intro hpos
    obtain ⟨w, hw⟩ := List.exists_mem_of_ne_nil _ (List.length_pos.mp hpos)
    obtain ⟨hws, hpw⟩ := List.mem_filter.mp hw
    exact ⟨w, hws, hpw⟩
  · rintro ⟨w, hws, hpw⟩
    exact List.length_pos.mpr
      (List.ne_nil_of_mem (List.mem_filter.mpr ⟨hws, hpw⟩))

/-- C2 (amended): over a well-formed registry state and a non-empty user
identity, `send_personal_message` returns true iff at least one of the
user's connections received the payload; it returns false when the user
has no forward-index entry; every connection whose send fails is removed
from both indices by the call; and a user with a single always-failing
connection gets a false return with `is_user_connected` false
afterwards.  (For the empty identity the self-healing removal silently
fails; see the counterexample.) -/
theorem c2_send_personal_message (st : ConnectionManager)
    (sendOk : Ws → Bool) (uid : String)
    (hc : ConnectionManager.Consistent st) (hne : uid ≠ "") :
    ((ConnectionManager.send_personal_message st sendOk uid).ok = true ↔
      ∃ s, st.active_connections uid = some s ∧
        ∃ w, w ∈ s ∧ sendOk w = true) ∧
    (st.active_connections uid = none →
      (ConnectionManager.send_personal_message st sendOk uid).ok = false) ∧
    (∀ s w, st.active_connections uid = some s → w ∈ s → sendOk w = false →
      (ConnectionManager.send_personal_message st sendOk
        uid).st.connection_to_user w = none ∧
      (∀ u s2, (ConnectionManager.send_personal_message st sendOk
          uid).st.active_connections u = some s2 → w ∉ s2)) ∧
    (∀ w, st.active_connections uid = some [w] → sendOk w = false →
      (ConnectionManager.send_personal_message st sendOk uid).ok = false ∧
      ConnectionManager.is_user_connected
        (ConnectionManager.send_personal_message st sendOk uid).st uid =
        false) := by
  refine ⟨?_, ?_, ?_, ?_⟩
  · cases hact : st.active_connections uid with
    | none =>
      rw [ConnectionManager.send_of_none sendOk hact]
      constructor
      · intro h
        exact absurd h (by simp)
      · rintro ⟨s, hs, -⟩
        exact Option.noConfusion hs
    | some s =>
      obtain ⟨hok, -, -, -, -, -⟩ :=
        ConnectionManager.send_spec sendOk hc hne hact
      rw [hok]
      constructor
      · intro h
        exact ⟨s, rfl, (filter_length_pos_iff s _).mp (of_decide_eq_true h)⟩
      · rintro ⟨s', hs', w, hw, hsw⟩
        injection hs' with hs'
        subst hs'
        exact decide_eq_true ((filter_length_pos_iff s _).mpr ⟨w, hw, hsw⟩)
  · intro hact
    rw [ConnectionManager.send_of_none sendOk hact]
  · intro s w hact hw hfail
    obtain ⟨-, -, hcons, -, -, hrev⟩ :=
      ConnectionManager.send_spec sendOk hc hne hact
    have hrevw : (ConnectionManager.send_personal_message st sendOk
        uid).st.connection_to_user w = none := by
      rw [hrev w, if_pos ⟨hw, hfail⟩]
    refine ⟨hrevw, ?_⟩
    intro u s2 hs2 hmem
    have hcontra := hcons.2.1 u s2 w hs2 hmem
    rw [hrevw] at hcontra
    exact Option.noConfusion hcontra
  · intro w hact hfail
    obtain ⟨hok, -, -, -, -, -⟩ :=
      ConnectionManager.send_spec sendOk hc hne hact
    have hfilter : ([w].filter (fun x => sendOk x)) = [] := by
      simp [List.filter, hfail]
    constructor
    · rw [hok, hfilter]
      rfl
    · rw [ConnectionManager.send_connected_after sendOk hc hne hact, hok,
        hfilter]
      rfl

/-- C2 witness: user `"A"` with the single connection `0` whose sends all
fail — the call returns false and the user is no longer connected. -/
theorem c2_witness :
    ConnectionManager.Consistent
      (ConnectionManager.connect ConnectionManager.init 0 "A") ∧
    ("A" : String) ≠ "" ∧
    (ConnectionManager.send_personal_message
      (ConnectionManager.connect ConnectionManager.init 0 "A")
      (fun _ => false) "A").ok = false ∧
    ConnectionManager.is_user_connected
      (ConnectionManager.send_personal_message
        (ConnectionManager.connect ConnectionManager.init 0 "A")
        (fun _ => false) "A").st "A" = false := by
  have hc : ConnectionManager.Consistent
      (ConnectionManager.connect ConnectionManager.init 0 "A") :=
    ConnectionManager.consistent_connect ConnectionManager.consistent_init rfl
  obtain ⟨h1, h2⟩ :=
    (c2_send_personal_message
      (ConnectionManager.connect ConnectionManager.init 0 "A")
      (fun _ => false) "A" hc (by decide)).2.2.2 0 (by decide) rfl
  exact ⟨hc, by decide, h1, h2⟩

/-- C2 counterexample: for the empty user identity — reachable because
`connect` performs no identity validation — a single always-failing
connection yields a false return, but the dead connection is NOT reaped:
`is_user_connected("")` remains true afterwards, because the self-healing
path calls `disconnect`, whose removal block is skipped for falsy
identities. -/
theorem c2_counterexample :
    (ConnectionManager.send_personal_message
      (ConnectionManager.connect ConnectionManager.init 0 "")
      (fun _ => false) "").ok = false ∧
    ConnectionManager.is_user_connected
      (ConnectionManager.send_personal_message
        (ConnectionManager.connect ConnectionManager.init 0 "")
        (fun _ => false) "").st "" = true := by
  constructor <;> decide

namespace WebSocketService

theorem format_message_eq (now : String) (message : Message) :
    format_message now message =
      if (if message "type" = none then dictSet message "type" "message"
          else message) "timestamp" = none
      then dictSet (if message "type" = none
            then dictSet message "type" "message" else message)
            "timestamp" now
      else (if message "type" = none then dictSet message "type" "message"
            else message) := rfl

theorem format_message_type (now : String) (message : Message) :
    format_message now message "type" =
      some ((message "type").getD "message") := by
  rw [format_message_eq]
  set m1 := (if message "type" = none then dictSet message "type" "message"
             else message) with hm1
  have htype : m1 "type" = some ((message "type").getD "message") := by
    rw [hm1]
    cases hty : message "type" with
    | none => simp [dictSet]
    | some t => simp [dictSet, hty]
  by_cases hts : m1 "timestamp" = none
  · rw [if_pos hts, dictSet_other _ _ _ _ (by decide), htype]
  · rw [if_neg hts, htype]

theorem format_message_timestamp (now : String) (message : Message) :
    (format_message now message "timestamp").isSome := by
  rw [format_message_eq]
  set m1 := (if message "type" = none then dictSet message "type" "message"
             else message) with hm1
  by_cases hts : m1 "timestamp" = none
  · rw [if_pos hts, dictSet_same]
    rfl
  · rw [if_neg hts]
    exact Option.ne_none_iff_isSome.mp hts

theorem format_message_preserves (now : String) (message : Message)
    (k v : String) (h : message k = some v) :
    format_message now message k = some v := by
  rw [format_message_eq]
  set m1 := (if message "type" = none then dictSet message "type" "message"
             else message) with hm1
  have hm1k : m1 k = some v := by
    rw [hm1]
    by_cases hty : message "type" = none
    · rw [if_pos hty]
      by_cases hk : k = "type"
      · subst hk
        rw [h] at hty
        exact Option.noConfusion hty
      · rw [dictSet_other _ _ _ _ hk]
        exact h
    · rw [if_neg hty]
      exact h
  by_cases hts : m1 "timestamp" = none
  · rw [if_pos hts]
    by_cases hk : k = "timestamp"
    · subst hk
      rw [hm1k] at hts
      exact Option.noConfusion hts
    · rw [dictSet_other _ _ _ _ hk]
      exact hm1k
  · rw [if_neg hts]
    exact hm1k

end WebSocketService

/-- A concrete message dictionary used by witnesses: only a `"content"`
field is set by the caller. -/
def sampleMessage : Message :=
  fun k => if k = "content" then some "hi" else none

/-- C4: the message delivered by `send_message_to_user` and
`send_message_to_group` is the `_format_message` normalization of the
caller's message, which always carries a `"type"` field (defaulting to
`"message"` when the caller omitted it) and a `"timestamp"` field
(generated when omitted), and never overwrites a field the caller
explicitly set — in particular an explicit type `"custom"` is delivered
unchanged. -/
theorem c4_dispatcher_normalization (st : ConnectionManager)
    (sendOk : Ws → Bool) (now user_id : String) (message : Message) :
    (WebSocketService.send_message_to_user st sendOk now user_id
        message).payload = WebSocketService.format_message now message ∧
    (∀ (members : List String) (exclude_user_id : Option String),
      members ≠ [] →
      (WebSocketService.send_message_to_group st sendOk now members message
          exclude_user_id).payload =
        some (WebSocketService.format_message now message)) ∧
    (message "type" = none →
      WebSocketService.format_message now message "type" = some "message") ∧
    (∀ t, message "type" = some t →
      WebSocketService.format_message now message "type" = some t) ∧
    (WebSocketService.format_message now message "timestamp").isSome ∧
    (∀ k v, message k = some v →
      WebSocketService.format_message now message k = some v) ∧
    (message "type" = some "custom" →
      WebSocketService.format_message now message "type" = some "custom") := by
  refine ⟨rfl, ?_, ?_, ?_, WebSocketService.format_message_timestamp now message,
    WebSocketService.format_message_preserves now message, ?_⟩
  · intro members exclude_user_id hne
    simp [WebSocketService.send_message_to_group, hne]
  · intro h
    rw [WebSocketService.format_message_type, h]
    rfl
  · intro t h
    exact WebSocketService.format_message_preserves now message "type" t h
  · intro h
    exact WebSocketService.format_message_preserves now message "type"
      "custom" h

/-- C4 witness: a message with only a caller-set `"content"` field gets
the default type, a generated timestamp, and its own field untouched; a
non-empty member list gets the formatted payload. -/
theorem c4_witness :
    sampleMessage "type" = none ∧
    WebSocketService.format_message "t0" sampleMessage "type" =
      some "message" ∧
    sampleMessage "content" = some "hi" ∧
    WebSocketService.format_message "t0" sampleMessage "content" =
      some "hi" ∧
    (["u"] : List String) ≠ [] ∧
    (WebSocketService.send_message_to_group ConnectionManager.init
        (fun _ => true) "t0" ["u"] sampleMessage none).payload =
      some (WebSocketService.format_message "t0" sampleMessage) := by
  have h := c4_dispatcher_normalization ConnectionManager.init
    (fun _ => true) "t0" "u" sampleMessage
  exact ⟨rfl, h.2.2.1 rfl, rfl,
    h.2.2.2.2.2.1 "content" "hi" rfl, by decide,
    h.2.1 ["u"] none (by decide)⟩

/-- C5: group fan-out — an empty member list returns 0 with the state
untouched and nothing sent; with members `[A, B]` and excluded identity
`A`, a write is attempted only on `B`'s connection and one delivery is
counted; with members `[A, B, C]` where `B`'s connection fails and `A`,
`C` succeed, the call returns 2 and afterwards `B` is no longer connected
while `A` and `C` remain connected. -/
theorem c5_group_fanout :
    (∀ (st : ConnectionManager) (sendOk : Ws → Bool) (now : String)
        (message : Message) (exclude_user_id : Option String),
      WebSocketService.send_message_to_group st sendOk now [] message
        exclude_user_id = ⟨0, st, [], none⟩) ∧
    ((WebSocketService.send_message_to_group
        (ConnectionManager.connect
          (ConnectionManager.connect ConnectionManager.init 0 "A") 1 "B")
        (fun _ => true) "t0" ["A", "B"] sampleMessage
        (some "A")).attempts = [1] ∧
      (WebSocketService.send_message_to_group
        (ConnectionManager.connect
          (ConnectionManager.connect ConnectionManager.init 0 "A") 1 "B")
        (fun _ => true) "t0" ["A", "B"] sampleMessage
        (some "A")).count = 1) ∧
    ((WebSocketService.send_message_to_group
        (ConnectionManager.connect (ConnectionManager.connect
          (ConnectionManager.connect ConnectionManager.init 0 "A") 1 "B")
          2 "C")
        (fun w => w != 1) "t0" ["A", "B", "C"] sampleMessage none).count =
        2 ∧
      ConnectionManager.is_user_connected
        (WebSocketService.send_message_to_group
          (ConnectionManager.connect (ConnectionManager.connect
            (ConnectionManager.connect ConnectionManager.init 0 "A") 1 "B")
            2 "C")
          (fun w => w != 1) "t0" ["A", "B", "C"] sampleMessage none).st "A" =
        true ∧
      ConnectionManager.is_user_connected
        (WebSocketService.send_message_to_group
          (ConnectionManager.connect (ConnectionManager.connect
            (ConnectionManager.connect ConnectionManager.init 0 "A") 1 "B")
            2 "C")
          (fun w => w != 1) "t0" ["A", "B", "C"] sampleMessage none).st "B" =
        false ∧
      ConnectionManager.is_user_connected
        (WebSocketService.send_message_to_group
          (ConnectionManager.connect (ConnectionManager.connect
            (ConnectionManager.connect ConnectionManager.init 0 "A") 1 "B")
            2 "C")
          (fun w => w != 1) "t0" ["A", "B", "C"] sampleMessage none).st "C" =
        true) := by
  refine ⟨fun st sendOk now message exclude_user_id => rfl, ?_, ?_⟩
  · constructor <;> decide
  · refine ⟨by decide, by decide, by decide, by decide⟩

/-- C6: every terminating execution of `handle_connection` — normal
disconnect, processing exception, receive failure, or a failure during
connection establishment (before or after registration) — invokes the
registry unregistration `manager.disconnect` exactly once, as the final
step, via the `finally` block; it is never skipped. -/
theorem c6_teardown_unregister_once (co : ConnectOutcome) (frames : Nat)
    (ending : LoopEnding) :
    (handle_connection co frames ending).count HEvent.unregister = 1 ∧
    (handle_connection co frames ending).getLast? = some HEvent.unregister := by
  have hrep : (List.replicate frames HEvent.msgHandled).count
      HEvent.unregister = 0 := by
    simp [List.count_replicate]
  refine ⟨?_, ?_⟩
  · cases co <;> cases ending <;>
      simp [handle_connection, List.count_append, List.count_cons,
        List.count_nil, hrep]
  · exact List.getLast?_concat _

/-- The `"type"` fields of a reply list, used to state which replies are
error-typed. -/
def reply_types (rs : List JVal) : List (Option JVal) :=
  rs.map (fun r => reply_field r "type")

/-- C7 (amended): on a frame that fails JSON decoding,
`SimpleWebSocketHandler.on_message` wraps the raw payload as opaque text
content under the fallback type `"text"` and echoes it back without any
error-typed reply, while `IMWebSocketHandler.on_message` instead replies
with an `error`-typed payload (code `INVALID_FORMAT`); in both handlers
`on_message` returns normally, so the connection remains Active. -/
theorem c7_undecodable_frame (raw : String)
    (handle_send_message : List (String × JVal) → List JVal) :
    simple_on_message (InFrame.notJson raw) =
      [JVal.obj [("type", JVal.str "message"),
                 ("content", JVal.obj [("type", JVal.str "text"),
                                       ("content", JVal.str raw)]),
                 ("message", JVal.str ("收到消息: " ++ raw))]] ∧
    (∀ r, r ∈ simple_on_message (InFrame.notJson raw) →
      reply_field r "type" ≠ some (JVal.str "error")) ∧
    im_on_message handle_send_message (InFrame.notJson raw) =
      [send_error_payload "消息格式错误，必须是有效的 JSON"
        (some "INVALID_FORMAT")] ∧
    (∀ r, r ∈ im_on_message handle_send_message (InFrame.notJson raw) →
      reply_field r "type" = some (JVal.str "error")) := by
  refine ⟨rfl, ?_, rfl, ?_⟩
  · intro r hr
    rcases List.mem_singleton.mp hr with rfl
    intro hcontra
    injection hcontra with h1
    injection h1 with h2
    exact absurd h2 (by decide)
  · intro r hr
    rcases List.mem_singleton.mp hr with rfl
    rfl

/-- C7 witness: the concrete undecodable frame `"zzz"` instantiating both
membership hypotheses of `c7_undecodable_frame`. -/
theorem c7_witness :
    (JVal.obj [("type", JVal.str "message"),
               ("content", JVal.obj [("type", JVal.str "text"),
                                     ("content", JVal.str "zzz")]),
               ("message", JVal.str ("收到消息: " ++ "zzz"))] ∈
      simple_on_message (InFrame.notJson "zzz")) ∧
    reply_field
      (JVal.obj [("type", JVal.str "message"),
                 ("content", JVal.obj [("type", JVal.str "text"),
                                       ("content", JVal.str "zzz")]),
                 ("message", JVal.str ("收到消息: " ++ "zzz"))]) "type" ≠
      some (JVal.str "error") :=
  ⟨List.mem_singleton_self _,
   (c7_undecodable_frame "zzz" no_send_replies).2.1 _
     (List.mem_singleton_self _)⟩

/-- C7 counterexample: the claim states every handler treats an
undecodable frame as opaque fallback text "rather than replying with an
error", but `IMWebSocketHandler.on_message` answers the undecodable frame
`"hello"` with a single reply whose `"type"` field is `"error"`. -/
theorem c7_counterexample :
    reply_types (im_on_message no_send_replies (InFrame.notJson "hello")) =
      [some (JVal.str "error")] := rfl

/-- C8 (amended): on a well-decoded frame whose `"type"` is none of the
recognized types, `IMWebSocketHandler.on_message` replies with an
`error`-typed payload carrying the machine-readable code
`UNKNOWN_MESSAGE_TYPE` and a human-readable message, returning normally
(the receive loop is not terminated); `SimpleWebSocketHandler` instead
echoes the unknown frame back under a `"message"`-typed payload (see the
counterexample), likewise staying active. -/
theorem c8_unknown_type
    (handle_send_message : List (String × JVal) → List JVal)
    (raw : String) (data : List (String × JVal)) (t : String)
    (hmt : messageTypeOf data = JVal.str t)
    (hping : t ≠ "ping") (hsend : t ≠ "send_message") :
    im_on_message handle_send_message (InFrame.jsonFrame raw data) =
      [send_error_payload ("未知的消息类型: " ++ t)
        (some "UNKNOWN_MESSAGE_TYPE")] ∧
    reply_field (send_error_payload ("未知的消息类型: " ++ t)
        (some "UNKNOWN_MESSAGE_TYPE")) "type" = some (JVal.str "error") ∧
    reply_field (send_error_payload ("未知的消息类型: " ++ t)
        (some "UNKNOWN_MESSAGE_TYPE")) "code" =
      some (JVal.str "UNKNOWN_MESSAGE_TYPE") ∧
    reply_field (send_error_payload ("未知的消息类型: " ++ t)
        (some "UNKNOWN_MESSAGE_TYPE")) "message" =
      some (JVal.str ("未知的消息类型: " ++ t)) := by
  refine ⟨?_, rfl, rfl, rfl⟩
  simp [im_on_message, hmt, jeqStr, hping, hsend, pyStr]

/-- C8 witness: the concrete unrecognized type `"custom"` instantiating
the hypotheses of `c8_unknown_type`. -/
theorem c8_witness :
    messageTypeOf [("type", JVal.str "custom")] = JVal.str "custom" ∧
    ("custom" : String) ≠ "ping" ∧
    ("custom" : String) ≠ "send_message" ∧
    im_on_message no_send_replies
      (InFrame.jsonFrame "x" [("type", JVal.str "custom")]) =
      [send_error_payload ("未知的消息类型: " ++ "custom")
        (some "UNKNOWN_MESSAGE_TYPE")] :=
  ⟨rfl, by decide, by decide,
   (c8_unknown_type no_send_replies "x" [("type", JVal.str "custom")]
     "custom" rfl (by decide) (by decide)).1⟩

/-- C8 counterexample: the claim states every connection handler answers
an unrecognized type with an error-typed reply, but
`SimpleWebSocketHandler.on_message` answers a frame of unknown type
`"custom"` with a single `"message"`-typed echo, not an `"error"`-typed
payload. -/
theorem c8_counterexample :
    reply_types (simple_on_message
      (InFrame.jsonFrame "x" [("type", JVal.str "custom")])) =
      [some (JVal.str "message")] ∧
    reply_types (simple_on_message
      (InFrame.jsonFrame "x" [("type", JVal.str "custom")])) ≠
      [some (JVal.str "error")] := by
  refine ⟨rfl, ?_⟩
  intro h
  injection h with h1 h2
  injection h1 with h3
  injection h3 with h4
  exact absurd h4 (by decide)
